import Mathlib

/-!
Verification of the urbanplace frontend session/authentication core.

The development shallowly embeds the client-side core of the repository:

* `src/frontend/lib/api.ts` — the shared axios instance with its request
  interceptor (bearer-header attachment from `localStorage`) and response
  interceptor (401 handling), and the `workers.createProfile` multipart
  body builder;
* the `useAuth` hook (session state, `setUserAndToken`, `logout`, and the
  mount-time effect that restores the persisted user);
* the page-level route guards of the search, dashboard, worker-profile and
  tutor-profile pages.

Modelling conventions:

* Browser `localStorage` is modelled by `Storage`, restricted to the two
  keys the core reads and writes (`"user"` and `"token"`).  All operations
  run in a browser context (`typeof window !== "undefined"` is true).
* `JSON.parse` is modelled by `jsonParse`, a genuine character-level
  parser for the JSON grammar over the `Json` value type (whitespace,
  object members in any order, escapes, numbers kept as their parsed
  components rather than IEEE doubles); its `none` result is the thrown
  SyntaxError.  `JSON.stringify` on a `User` object is `stringifyUser`.
  The raw mount effect `initAdopted` adopts whatever JSON value parsing
  produced, with no schema validation, exactly as `setUser(JSON.parse(
  stored))` does; `jsonToUser` / `parseUser` are the Identity-typed view
  of such a value, used by the claims that speak about Identities, and
  `initSession_initAdopted` relates the view to the raw effect.
* JS truthiness tests on strings (`if (token)`, `if (stored)`) are
  translated explicitly: `none` and `some ""` are both falsy.
* Each React component that calls `useAuth` owns an independent
  `useState` pair; `World` models several simultaneously mounted
  consumers over one shared `Storage`.
-/

/-! ## Characters, digits and JSON string escaping -/

/-- Decimal digit character for a digit value below ten. -/
def digitChar (d : Nat) : Char :=
  match d with
  | 0 => '0' | 1 => '1' | 2 => '2' | 3 => '3' | 4 => '4'
  | 5 => '5' | 6 => '6' | 7 => '7' | 8 => '8' | _ => '9'

theorem digitChar_isDigit {d : Nat} (h : d < 10) : (digitChar d).isDigit = true := by
  interval_cases d <;> decide

theorem digitChar_val {d : Nat} (h : d < 10) : (digitChar d).toNat - 48 = d := by
  interval_cases d <;> decide

theorem digitChar_ne_minus {d : Nat} (h : d < 10) : digitChar d ≠ '-' := by
  interval_cases d <;> decide

/-- Little-endian decimal digits, computed with explicit fuel so that the
definition reduces inside the kernel. -/
def natDigitsLE : Nat → Nat → List Nat
  | 0, _ => []
  | fuel + 1, n => if n = 0 then [] else n % 10 :: natDigitsLE fuel (n / 10)

/-- Big-endian digit list of a natural number, with `[0]` for zero
(mirrors the decimal rendering used by `JSON.stringify` on an integral
number). -/
def natDigitList (n : Nat) : List Nat :=
  if n = 0 then [0] else (natDigitsLE n n).reverse

/-- Decimal rendering of a natural number as characters. -/
def renderNat (n : Nat) : List Char :=
  (natDigitList n).map digitChar

/-- Decimal rendering of an integer, with a leading minus sign when
negative. -/
def renderInt (i : Int) : List Char :=
  if i < 0 then '-' :: renderNat i.natAbs else renderNat i.natAbs

/-- Lowercase hexadecimal digit character for a value below sixteen. -/
def hexDigitChar (n : Nat) : Char :=
  match n with
  | 0 => '0' | 1 => '1' | 2 => '2' | 3 => '3' | 4 => '4' | 5 => '5'
  | 6 => '6' | 7 => '7' | 8 => '8' | 9 => '9' | 10 => 'a' | 11 => 'b'
  | 12 => 'c' | 13 => 'd' | 14 => 'e' | _ => 'f'

/-- Value of a hexadecimal digit character, accepting both cases. -/
def hexVal (c : Char) : Option Nat :=
  if '0' ≤ c ∧ c ≤ '9' then some (c.toNat - 48)
  else if 'a' ≤ c ∧ c ≤ 'f' then some (c.toNat - 87)
  else if 'A' ≤ c ∧ c ≤ 'F' then some (c.toNat - 55)
  else none

/-- JSON.stringify escaping of one character: quote and backslash get a
backslash prefix, the named control escapes are used for backspace, tab,
newline, form feed and carriage return, the remaining control characters
become lowercase unicode escapes, and everything else is untouched. -/
def escapeChar (c : Char) : List Char :=
  if c = '"' ∨ c = '\\' then ['\\', c]
  else if c = '\n' then ['\\', 'n']
  else if c = '\t' then ['\\', 't']
  else if c = '\r' then ['\\', 'r']
  else if c.toNat = 8 then ['\\', 'b']
  else if c.toNat = 12 then ['\\', 'f']
  else if c.toNat < 32 then
    ['\\', 'u', '0', '0', hexDigitChar (c.toNat / 16), hexDigitChar (c.toNat % 16)]
  else [c]

/-- JSON escaping of a character sequence. -/
def escapeString : List Char → List Char
  | [] => []
  | c :: cs => escapeChar c ++ escapeString cs

/-- A JSON string literal: opening quote, escaped body, closing quote. -/
def renderString (s : String) : List Char :=
  '"' :: (escapeString s.toList ++ ['"'])

/-! ## Parsing primitives -/

/-- Consume an expected literal prefix, returning the rest of the input. -/
def expectChars : List Char → List Char → Option (List Char)
  | [], input => some input
  | _ :: _, [] => none
  | e :: es, c :: cs => if c = e then expectChars es cs else none

/-- Skip JSON insignificant whitespace. -/
def skipWs : List Char → List Char
  | [] => []
  | c :: cs =>
    if c = ' ' ∨ c = '\n' ∨ c = '\t' ∨ c = '\r' then skipWs cs else c :: cs

/-- Meaning of a single-character JSON string escape. -/
def unescapeChar (c : Char) : Option Char :=
  if c = '"' then some '"'
  else if c = '\\' then some '\\'
  else if c = '/' then some '/'
  else if c = 'n' then some '\n'
  else if c = 't' then some '\t'
  else if c = 'r' then some '\r'
  else if c = 'b' then some (Char.ofNat 8)
  else if c = 'f' then some (Char.ofNat 12)
  else none

/-- Code point of four hexadecimal digit characters. -/
def hexQuad (h1 h2 h3 h4 : Char) : Option Nat :=
  match hexVal h1, hexVal h2, hexVal h3, hexVal h4 with
  | some a, some b, some c, some d => some (((a * 16 + b) * 16 + c) * 16 + d)
  | _, _, _, _ => none

/-- Body of a JSON string literal after the opening quote: read until the
closing quote, decoding the named escapes and 4-digit unicode escapes,
and rejecting unknown escapes and raw control characters as JSON.parse
does.  (Surrogate-pair escapes for characters beyond the basic plane are
outside the model.) -/
def parseJStr : List Char → List Char → Option (String × List Char)
  | [], _ => none
  | c :: rest, acc =>
    if c = '"' then some (⟨acc.reverse⟩, rest)
    else if c = '\\' then
      match rest with
      | [] => none
      | e :: rest2 =>
        if e = 'u' then
          match rest2 with
          | h1 :: h2 :: h3 :: h4 :: rest3 =>
            match hexQuad h1 h2 h3 h4 with
            | some t => parseJStr rest3 (Char.ofNat t :: acc)
            | none => none
          | _ => none
        else
          match unescapeChar e with
          | some u => parseJStr rest2 (u :: acc)
          | none => none
    else if c.toNat < 32 then none
    else parseJStr rest (c :: acc)

/-- Accumulate a run of decimal digits; stops at the first non-digit. -/
def parseNatAux : List Char → Nat → Nat × List Char
  | [], acc => (acc, [])
  | c :: cs, acc =>
    if c.isDigit then parseNatAux cs (acc * 10 + (c.toNat - 48)) else (acc, c :: cs)

/-- Whether the input starts with a decimal digit. -/
def headIsDigit : List Char → Bool
  | [] => false
  | c :: _ => c.isDigit

/-- Greedily take a run of decimal digits, returning their values. -/
def takeDigits : List Char → List Nat × List Char
  | [] => ([], [])
  | c :: cs =>
    if c.isDigit then
      match takeDigits cs with
      | (ds, r) => ((c.toNat - 48) :: ds, r)
    else ([], c :: cs)

/-! ## Round-trip lemmas for the primitives -/

theorem expectChars_append (l rest : List Char) :
    expectChars l (l ++ rest) = some rest := by
  induction l with
  | nil => rfl
  | cons c cs ih => simp [expectChars, ih]

theorem parseNatAux_stop {rest : List Char} (h : headIsDigit rest = false)
    (acc : Nat) : parseNatAux rest acc = (acc, rest) := by
  cases rest with
  | nil => rfl
  | cons c cs =>
    simp [headIsDigit] at h
    simp [parseNatAux, h]

theorem parseNatAux_digits (ds : List Nat) :
    ∀ rest acc, (∀ d ∈ ds, d < 10) → headIsDigit rest = false →
      parseNatAux (ds.map digitChar ++ rest) acc =
        (ds.foldl (fun a d => a * 10 + d) acc, rest) := by
  induction ds with
  | nil => intro rest acc _ hrest; simpa using parseNatAux_stop hrest acc
  | cons d ds ih =>
    intro rest acc hlt hrest
    have hd : d < 10 := hlt d (by simp)
    have step : parseNatAux (digitChar d :: (ds.map digitChar ++ rest)) acc =
        parseNatAux (ds.map digitChar ++ rest) (acc * 10 + d) := by
      rw [parseNatAux.eq_def]
      simp [digitChar_isDigit hd, digitChar_val hd]
    rw [List.map_cons, List.cons_append, step,
      ih rest _ (fun x hx => hlt x (by simp [hx])) hrest]
    simp

theorem foldr_eq_ofDigits (l : List Nat) :
    l.foldr (fun d a => a * 10 + d) 0 = Nat.ofDigits 10 l := by
  induction l with
  | nil => simp [Nat.ofDigits]
  | cons d l ih => simp [List.foldr_cons, ih, Nat.ofDigits_cons]; ring

theorem natDigitsLE_eq_digits : ∀ fuel n, n ≤ fuel →
    natDigitsLE fuel n = Nat.digits 10 n := by
  intro fuel
  induction fuel with
  | zero => intro n h; interval_cases n; simp [natDigitsLE]
  | succ fuel ih =>
    intro n h
    by_cases hn : n = 0
    · simp [natDigitsLE, hn]
    · rw [natDigitsLE, if_neg hn, ih (n / 10) (by omega),
        Nat.digits_def' (by norm_num : (1 : ℕ) < 10) (Nat.pos_of_ne_zero hn)]

theorem natDigitList_foldl (n : Nat) :
    (natDigitList n).foldl (fun a d => a * 10 + d) 0 = n := by
  by_cases h : n = 0
  · simp [natDigitList, h]
  · rw [natDigitList, if_neg h, natDigitsLE_eq_digits n n le_rfl,
      List.foldl_reverse]
    have : (fun (d : Nat) (a : Nat) => (fun a d => a * 10 + d) a d) =
        fun d a => a * 10 + d := rfl
    rw [this, foldr_eq_ofDigits, Nat.ofDigits_digits]

theorem natDigitList_lt (n : Nat) : ∀ d ∈ natDigitList n, d < 10 := by
  intro d hd
  by_cases h : n = 0
  · simp [natDigitList, h] at hd; omega
  · rw [natDigitList, if_neg h, natDigitsLE_eq_digits n n le_rfl,
      List.mem_reverse] at hd
    exact Nat.digits_lt_base (by norm_num) hd

theorem natDigitList_ne_nil (n : Nat) : natDigitList n ≠ [] := by
  by_cases h : n = 0
  · simp [natDigitList, h]
  · rw [natDigitList, if_neg h, natDigitsLE_eq_digits n n le_rfl]
    simp [Nat.digits_ne_nil_iff_ne_zero, h]

/-! ## The JSON value model and JSON.parse

JSON.parse is modelled by a genuine parser for the JSON grammar:
insignificant whitespace, null, booleans, strings with the standard
escapes, numbers, arrays and objects with members in any order.  Numbers
are kept as their parsed components (sign, integer part, fraction digits,
optional exponent) rather than converted to IEEE doubles, so two
spellings of the same double compare unequal; no claim compares
non-integer numbers.  Surrogate-pair unicode escapes are outside the
model. -/

/-- A JSON value. -/
inductive Json where
  | null
  | bool (b : Bool)
  | num (neg : Bool) (intPart : Nat) (frac : List Nat) (exp : Option Int)
  | str (s : String)
  | arr (elems : List Json)
  | obj (members : List (String × Json))

/-- The JSON number of an integer. -/
def jnumOfInt (i : Int) : Json :=
  if i < 0 then Json.num true i.natAbs [] none else Json.num false i.natAbs [] none

/-- Optional exponent part of a JSON number (after the digits and the
optional fraction). -/
def parseJExp (neg : Bool) (ip : Nat) (frac : List Nat) :
    List Char → Option (Json × List Char)
  | 'e' :: cs => parseJExpSigned neg ip frac cs
  | 'E' :: cs => parseJExpSigned neg ip frac cs
  | rest => some (Json.num neg ip frac none, rest)
where
  parseJExpSigned (neg : Bool) (ip : Nat) (frac : List Nat) (input : List Char) :
      Option (Json × List Char) :=
    let p := match input with
      | '-' :: cs => (true, cs)
      | '+' :: cs => (false, cs)
      | cs => (false, cs)
    match takeDigits p.2 with
    | ([], _) => none
    | (d :: ds, r) =>
      let e : Int := (d :: ds).foldl (fun a x => a * 10 + x) 0
      some (Json.num neg ip frac (some (if p.1 then -e else e)), r)

/-- Fraction digits of a JSON number (after the decimal point): at least
one digit, then the optional exponent. -/
def parseJNumFrac (neg : Bool) (ip : Nat) (q : List Nat × List Char) :
    Option (Json × List Char) :=
  match q.1 with
  | [] => none
  | d :: ds => parseJExp neg ip (d :: ds) q.2

/-- Continuation after the integer part of a JSON number: optional
fraction, then optional exponent. -/
def parseJNumBody (neg : Bool) (p : Nat × List Char) : Option (Json × List Char) :=
  match p.2 with
  | '.' :: cs2 => parseJNumFrac neg p.1 (takeDigits cs2)
  | rest1 => parseJExp neg p.1 [] rest1

/-- A JSON number after the optional minus sign: integer part without a
leading zero, optional fraction, optional exponent. -/
def parseJNumber (neg : Bool) (input : List Char) : Option (Json × List Char) :=
  match input with
  | [] => none
  | c :: cs =>
    if c.isDigit then
      if c = '0' ∧ headIsDigit cs then none
      else parseJNumBody neg (parseNatAux (c :: cs) 0)
    else none

mutual

/-- Parse one JSON value (fuel bounds the nesting depth). -/
def parseJValue : Nat → List Char → Option (Json × List Char)
  | 0, _ => none
  | fuel + 1, input =>
    match skipWs input with
    | [] => none
    | c :: cs =>
      if c = '"' then
        match parseJStr cs [] with
        | some (s, rest) => some (Json.str s, rest)
        | none => none
      else if c = '\x7b' then
        match skipWs cs with
        | '\x7d' :: rest => some (Json.obj [], rest)
        | cs2 => parseJMembers fuel cs2 []
      else if c = '[' then
        match skipWs cs with
        | ']' :: rest => some (Json.arr [], rest)
        | cs2 => parseJElems fuel cs2 []
      else if c = 't' then (expectChars ['r', 'u', 'e'] cs).map (fun r => (Json.bool true, r))
      else if c = 'f' then (expectChars ['a', 'l', 's', 'e'] cs).map (fun r => (Json.bool false, r))
      else if c = 'n' then (expectChars ['u', 'l', 'l'] cs).map (fun r => (Json.null, r))
      else if c = '-' then parseJNumber true cs
      else if c.isDigit then parseJNumber false (c :: cs)
      else none

/-- Parse the members of a JSON object, positioned at a key. -/
def parseJMembers : Nat → List Char → List (String × Json) →
    Option (Json × List Char)
  | 0, _, _ => none
  | fuel + 1, input, acc =>
    match input with
    | '"' :: cs =>
      match parseJStr cs [] with
      | some (k, rest) =>
        match skipWs rest with
        | ':' :: rest2 =>
          match parseJValue fuel rest2 with
          | some (v, rest3) =>
            match skipWs rest3 with
            | ',' :: rest4 => parseJMembers fuel (skipWs rest4) ((k, v) :: acc)
            | '\x7d' :: rest4 => some (Json.obj ((k, v) :: acc).reverse, rest4)
            | _ => none
          | none => none
        | _ => none
      | none => none
    | _ => none

/-- Parse the elements of a JSON array, positioned at a value. -/
def parseJElems : Nat → List Char → List Json → Option (Json × List Char)
  | 0, _, _ => none
  | fuel + 1, input, acc =>
    match parseJValue fuel input with
    | some (v, rest) =>
      match skipWs rest with
      | ',' :: rest2 => parseJElems fuel rest2 (v :: acc)
      | ']' :: rest2 => some (Json.arr (v :: acc).reverse, rest2)
      | _ => none
    | none => none

end

/-- JSON.parse: parse one value with fuel ample for any nesting the input
could hold, and require the rest of the input to be whitespace; `none` is
the thrown SyntaxError. -/
def jsonParse (s : String) : Option Json :=
  match parseJValue (s.length + 1) s.toList with
  | some (j, rest) => if skipWs rest = [] then some j else none
  | none => none

/-! ## The Identity data model (interface User in api.ts) -/

/-- The UserRole union type of api.ts. -/
inductive Role
  | customer
  | worker
  | tutor
deriving DecidableEq

/-- The literal string for a role, as it appears in the JSON payload. -/
def Role.toString : Role → String
  | .customer => "customer"
  | .worker => "worker"
  | .tutor => "tutor"

/-- The User interface of api.ts (the Identity of the spec). -/
structure User where
  id : Int
  name : String
  email : String
  role : Role
  trust_score : Int
  created_at : String
deriving DecidableEq

/-- A JSON object key followed by the separating colon, for the plain
ASCII keys of the User interface. -/
def keyColon (k : String) : List Char :=
  '"' :: (k.toList ++ ['"', ':'])

/-- Character sequence of the canonical JSON.stringify output for a User
object, members in the declaration order of the User interface. -/
def userChars (u : User) : List Char :=
  '{' :: (keyColon "id" ++ (renderInt u.id ++ (',' ::
    (keyColon "name" ++ (renderString u.name ++ (',' ::
    (keyColon "email" ++ (renderString u.email ++ (',' ::
    (keyColon "role" ++ (renderString u.role.toString ++ (',' ::
    (keyColon "trust_score" ++ (renderInt u.trust_score ++ (',' ::
    (keyColon "created_at" ++ (renderString u.created_at ++ ['}'])))))))))))))))))

/-- JSON.stringify on a User object. -/
def stringifyUser (u : User) : String :=
  ⟨userChars u⟩

/-- Validate a role string. -/
def parseRole (s : String) : Option Role :=
  if s = "customer" then some .customer
  else if s = "worker" then some .worker
  else if s = "tutor" then some .tutor
  else none

/-- The JSON object JSON.stringify serializes a User to (and the JS
object `setUser` holds in memory after a successful login). -/
def userToJson (u : User) : Json :=
  Json.obj [("id", jnumOfInt u.id), ("name", Json.str u.name),
    ("email", Json.str u.email), ("role", Json.str u.role.toString),
    ("trust_score", jnumOfInt u.trust_score),
    ("created_at", Json.str u.created_at)]

/-- Integer value of a JSON number without fraction or exponent. -/
def jsonInt : Json → Option Int
  | Json.num neg ip [] none => some (if neg then -(ip : Int) else (ip : Int))
  | _ => none

/-- String value of a JSON string. -/
def jsonStr : Json → Option String
  | Json.str s => some s
  | _ => none

/-- The Identity-typed view of a parsed JSON value: a User when the value
is an object carrying the six fields of the User interface (in any member
order, extra members ignored), and `none` otherwise.  The runtime adopts
the raw value either way (see `initAdopted`); this view is what the
claims about Identities read off it. -/
def jsonToUser (j : Json) : Option User := do
  match j with
  | Json.obj members =>
    let idv ← (members.lookup "id").bind jsonInt
    let namev ← (members.lookup "name").bind jsonStr
    let emailv ← (members.lookup "email").bind jsonStr
    let rolev ← ((members.lookup "role").bind jsonStr).bind parseRole
    let trustv ← (members.lookup "trust_score").bind jsonInt
    let createdv ← (members.lookup "created_at").bind jsonStr
    some (User.mk idv namev emailv rolev trustv createdv)
  | _ => none

/-- JSON.parse of a stored identity string, followed by the Identity-typed
view: `some` exactly when the stored value is syntactically valid JSON
and describes a User. -/
def parseUser (s : String) : Option User :=
  (jsonParse s).bind jsonToUser

/-! ## Round trip of the User serialization -/

theorem parseRole_toString (r : Role) : parseRole (Role.toString r) = some r := by
  cases r <;> rfl

theorem hexVal_hexDigitChar {n : Nat} (h : n < 16) :
    hexVal (hexDigitChar n) = some n := by
  interval_cases n <;> decide

theorem hexQuad_encode (t : Nat) (h : t < 256) :
    hexQuad '0' '0' (hexDigitChar (t / 16)) (hexDigitChar (t % 16)) = some t := by
  have hv1 := hexVal_hexDigitChar (show t / 16 < 16 by omega)
  have hv2 := hexVal_hexDigitChar (show t % 16 < 16 by omega)
  rw [hexQuad, show hexVal '0' = some 0 from rfl, hv1, hv2]
  simp
  omega

theorem digitChar_toNat_range {d : Nat} (h : d < 10) :
    48 ≤ (digitChar d).toNat ∧ (digitChar d).toNat ≤ 57 := by
  interval_cases d <;> decide

theorem digitChar_ne {d : Nat} (h : d < 10) (c : Char)
    (hc : c.toNat < 48 ∨ 57 < c.toNat) : digitChar d ≠ c := by
  have hr := digitChar_toNat_range h
  intro he
  rw [he] at hr
  omega

theorem digitChar_ne_zero {d : Nat} (h0 : d ≠ 0) (h : d < 10) :
    digitChar d ≠ '0' := by
  interval_cases d <;> simp_all <;> decide

theorem skipWs_cons {c : Char}
    (h : ¬(c = ' ' ∨ c = '\n' ∨ c = '\t' ∨ c = '\r')) (rest : List Char) :
    skipWs (c :: rest) = c :: rest := by
  rw [skipWs, if_neg h]

theorem parseJStr_escape_step (e u : Char) (he : e ≠ 'u')
    (hu : unescapeChar e = some u) (rest acc : List Char) :
    parseJStr ('\\' :: e :: rest) acc = parseJStr rest (u :: acc) := by
  rw [parseJStr.eq_def]
  simp [he, hu]

theorem parseJStr_unicode_step (h1 h2 h3 h4 : Char) (t : Nat)
    (hq : hexQuad h1 h2 h3 h4 = some t) (rest acc : List Char) :
    parseJStr ('\\' :: 'u' :: h1 :: h2 :: h3 :: h4 :: rest) acc =
      parseJStr rest (Char.ofNat t :: acc) := by
  rw [parseJStr.eq_def]
  simp [hq]

theorem parseJStr_escape (cs : List Char) :
    ∀ acc rest, parseJStr (escapeString cs ++ '"' :: rest) acc =
      some (⟨acc.reverse ++ cs⟩, rest) := by
  induction cs with
  | nil =>
    intro acc rest
    rw [show escapeString [] ++ '"' :: rest = '"' :: rest from rfl,
      parseJStr.eq_def]
    simp
  | cons c cs ih =>
    intro acc rest
    have hstep : escapeString (c :: cs) ++ '"' :: rest =
        escapeChar c ++ (escapeString cs ++ '"' :: rest) := by
      simp [escapeString]
    by_cases h1 : c = '"' ∨ c = '\\'
    · have hesc : escapeChar c = ['\\', c] := by rw [escapeChar, if_pos h1]
      rw [hstep, hesc]
      rcases h1 with h | h <;> subst h <;>
        · rw [parseJStr.eq_def]
          simpa using ih (_ :: acc) rest
    · have h1q : c ≠ '"' := fun h => h1 (Or.inl h)
      have h1b : c ≠ '\\' := fun h => h1 (Or.inr h)
      by_cases h2 : c = '\n'
      · have hesc : escapeChar c = ['\\', 'n'] := by
          rw [escapeChar, if_neg h1, if_pos h2]
        rw [hstep, hesc, parseJStr.eq_def]
        subst h2
        simpa using ih ('\n' :: acc) rest
      · by_cases h3 : c = '\t'
        · have hesc : escapeChar c = ['\\', 't'] := by
            rw [escapeChar, if_neg h1, if_neg h2, if_pos h3]
          rw [hstep, hesc, parseJStr.eq_def]
          subst h3
          simpa using ih ('\t' :: acc) rest
        · by_cases h4 : c = '\r'
          · have hesc : escapeChar c = ['\\', 'r'] := by
              rw [escapeChar, if_neg h1, if_neg h2, if_neg h3, if_pos h4]
            rw [hstep, hesc, parseJStr.eq_def]
            subst h4
            simpa using ih ('\r' :: acc) rest
          · by_cases h5 : c.toNat = 8
            · have hc : c = Char.ofNat 8 := by
                rw [← h5, Char.ofNat_toNat]
              have hesc : escapeChar c = ['\\', 'b'] := by
                rw [escapeChar, if_neg h1, if_neg h2, if_neg h3, if_neg h4,
                  if_pos h5]
              rw [hstep, hesc]
              simp only [List.cons_append, List.nil_append]
              rw [parseJStr_escape_step 'b' (Char.ofNat 8) (by decide) rfl, ← hc]
              simpa using ih (c :: acc) rest
            · by_cases h6 : c.toNat = 12
              · have hc : c = Char.ofNat 12 := by
                  rw [← h6, Char.ofNat_toNat]
                have hesc : escapeChar c = ['\\', 'f'] := by
                  rw [escapeChar, if_neg h1, if_neg h2, if_neg h3, if_neg h4,
                    if_neg h5, if_pos h6]
                rw [hstep, hesc]
                simp only [List.cons_append, List.nil_append]
                rw [parseJStr_escape_step 'f' (Char.ofNat 12) (by decide) rfl, ← hc]
                simpa using ih (c :: acc) rest
              · by_cases h7 : c.toNat < 32
                · have hesc : escapeChar c = ['\\', 'u', '0', '0',
                      hexDigitChar (c.toNat / 16), hexDigitChar (c.toNat % 16)] := by
                    rw [escapeChar, if_neg h1, if_neg h2, if_neg h3, if_neg h4,
                      if_neg h5, if_neg h6, if_pos h7]
                  rw [hstep, hesc]
                  simp only [List.cons_append, List.nil_append]
                  rw [parseJStr_unicode_step '0' '0' _ _ c.toNat
                    (hexQuad_encode c.toNat (by omega)), Char.ofNat_toNat]
                  simpa using ih (c :: acc) rest
                · have hesc : escapeChar c = [c] := by
                    rw [escapeChar, if_neg h1, if_neg h2, if_neg h3, if_neg h4,
                      if_neg h5, if_neg h6, if_neg h7]
                  rw [hstep, hesc, parseJStr.eq_def]
                  simp only [List.cons_append, List.nil_append]
                  rw [if_neg h1q, if_neg h1b, if_neg (by omega : ¬c.toNat < 32)]
                  simpa using ih (c :: acc) rest

theorem mk_toList (s : String) : (⟨s.toList⟩ : String) = s := rfl

/-- Whether a JSON number ends at this input (its head cannot extend the
number). -/
def numStop : List Char → Bool
  | [] => true
  | c :: _ => !(c.isDigit || c = '.' || c = 'e' || c = 'E')

theorem numStop_headIsDigit {rest : List Char} (h : numStop rest = true) :
    headIsDigit rest = false := by
  cases rest with
  | nil => rfl
  | cons c cs =>
    simp [numStop] at h
    simp [headIsDigit, h.1]

theorem parseNatAux_renderNat (n : Nat) (rest : List Char)
    (hrest : headIsDigit rest = false) :
    parseNatAux (renderNat n ++ rest) 0 = (n, rest) := by
  rw [renderNat,
    parseNatAux_digits (natDigitList n) rest 0 (natDigitList_lt n) hrest,
    natDigitList_foldl]

theorem parseJExp_stop (neg : Bool) (ip : Nat) (frac : List Nat)
    (rest : List Char) (hrest : numStop rest = true) :
    parseJExp neg ip frac rest = some (Json.num neg ip frac none, rest) := by
  cases rest with
  | nil => rfl
  | cons c cs =>
    simp only [numStop, Bool.not_eq_true', Bool.or_eq_false_iff,
      decide_eq_false_iff_not] at hrest
    obtain ⟨⟨⟨-, -⟩, he⟩, hE⟩ := hrest
    rw [parseJExp.eq_def]
    simp [he, hE]

theorem parseJNumber_render (neg : Bool) (n : Nat) (rest : List Char)
    (hrest : numStop rest = true) :
    parseJNumber neg (renderNat n ++ rest) = some (Json.num neg n [] none, rest) := by
  obtain ⟨d, ds, hds⟩ : ∃ d ds, natDigitList n = d :: ds := by
    cases h : natDigitList n with
    | nil => exact absurd h (natDigitList_ne_nil n)
    | cons d ds => exact ⟨d, ds, rfl⟩
  have hd : d < 10 := by
    have := natDigitList_lt n
    rw [hds] at this
    exact this d (by simp)
  have hren : renderNat n ++ rest = digitChar d :: (ds.map digitChar ++ rest) := by
    rw [renderNat, hds]
    simp
  have hnaux : parseNatAux (digitChar d :: (ds.map digitChar ++ rest)) 0 = (n, rest) := by
    rw [← hren]
    exact parseNatAux_renderNat n rest (numStop_headIsDigit hrest)
  have hlz : ¬(digitChar d = '0' ∧ headIsDigit (ds.map digitChar ++ rest) = true) := by
    by_cases hn : n = 0
    · have h0 : natDigitList n = [0] := by rw [natDigitList, if_pos hn]
      rw [hds] at h0
      injection h0 with hd0 hds0
      rintro ⟨-, hcontra⟩
      rw [hds0] at hcontra
      simp only [List.map_nil, List.nil_append] at hcontra
      rw [numStop_headIsDigit hrest] at hcontra
      exact Bool.noConfusion hcontra
    · have hrev : (Nat.digits 10 n).reverse = d :: ds := by
        rw [← natDigitsLE_eq_digits n n le_rfl]
        rw [natDigitList, if_neg hn] at hds
        exact hds
      have hne : Nat.digits 10 n ≠ [] := Nat.digits_ne_nil_iff_ne_zero.mpr hn
      have hmsd : d ≠ 0 := by
        have hlast : (Nat.digits 10 n).getLast? = some d := by
          rw [← List.head?_reverse, hrev]
          rfl
        have hnz := Nat.getLast_digit_ne_zero 10 hn
        rw [List.getLast?_eq_getLast _ hne] at hlast
        injection hlast with h
        rw [← h]
        exact hnz
      rintro ⟨hzero, -⟩
      exact digitChar_ne_zero hmsd hd hzero
  have hbody : parseJNumBody neg (n, rest) = parseJExp neg n [] rest := by
    cases rest with
    | nil => rfl
    | cons c2 r2 =>
      simp only [numStop, Bool.not_eq_true', Bool.or_eq_false_iff,
        decide_eq_false_iff_not] at hrest
      obtain ⟨⟨⟨-, hdot⟩, -⟩, -⟩ := hrest
      rw [parseJNumBody.eq_def]
      simp [hdot]
  rw [hren, parseJNumber.eq_def]
  simp only [digitChar_isDigit hd, if_true, if_neg hlz, hnaux, hbody,
    parseJExp_stop neg n [] rest hrest]

theorem parseJValue_succ (fuel : Nat) (input : List Char) :
    parseJValue (fuel + 1) input = (match skipWs input with
      | [] => none
      | c :: cs =>
        if c = '"' then
          match parseJStr cs [] with
          | some (s, rest) => some (Json.str s, rest)
          | none => none
        else if c = '\x7b' then
          match skipWs cs with
          | '\x7d' :: rest => some (Json.obj [], rest)
          | cs2 => parseJMembers fuel cs2 []
        else if c = '[' then
          match skipWs cs with
          | ']' :: rest => some (Json.arr [], rest)
          | cs2 => parseJElems fuel cs2 []
        else if c = 't' then (expectChars ['r', 'u', 'e'] cs).map (fun r => (Json.bool true, r))
        else if c = 'f' then (expectChars ['a', 'l', 's', 'e'] cs).map (fun r => (Json.bool false, r))
        else if c = 'n' then (expectChars ['u', 'l', 'l'] cs).map (fun r => (Json.null, r))
        else if c = '-' then parseJNumber true cs
        else if c.isDigit then parseJNumber false (c :: cs)
        else none) := rfl

theorem parseJMembers_succ (fuel : Nat) (input : List Char)
    (acc : List (String × Json)) :
    parseJMembers (fuel + 1) input acc = (match input with
      | '"' :: cs =>
        match parseJStr cs [] with
        | some (k, rest) =>
          match skipWs rest with
          | ':' :: rest2 =>
            match parseJValue fuel rest2 with
            | some (v, rest3) =>
              match skipWs rest3 with
              | ',' :: rest4 => parseJMembers fuel (skipWs rest4) ((k, v) :: acc)
              | '\x7d' :: rest4 => some (Json.obj ((k, v) :: acc).reverse, rest4)
              | _ => none
            | none => none
          | _ => none
        | none => none
      | _ => none) := rfl

theorem parseJValue_renderString (fuel : Nat) (s : String) (rest : List Char) :
    parseJValue (fuel + 1) (renderString s ++ rest) = some (Json.str s, rest) := by
  have h : renderString s ++ rest = '"' :: (escapeString s.toList ++ '"' :: rest) := by
    simp [renderString]
  rw [h, parseJValue_succ, skipWs_cons (by decide) _]
  have hs := parseJStr_escape s.toList [] rest
  simp only [List.reverse_nil, List.nil_append, mk_toList, String.toList] at hs
  simp [hs]

theorem parseJValue_renderInt (fuel : Nat) (i : Int) (rest : List Char)
    (hrest : numStop rest = true) :
    parseJValue (fuel + 1) (renderInt i ++ rest) = some (jnumOfInt i, rest) := by
  by_cases hneg : i < 0
  · have h : renderInt i ++ rest = '-' :: (renderNat i.natAbs ++ rest) := by
      rw [renderInt, if_pos hneg]
      simp
    rw [h, parseJValue_succ, skipWs_cons (by decide) _]
    simp [parseJNumber_render true i.natAbs rest hrest, jnumOfInt, hneg]
  · obtain ⟨d, ds, hds⟩ : ∃ d ds, natDigitList i.natAbs = d :: ds := by
      cases h : natDigitList i.natAbs with
      | nil => exact absurd h (natDigitList_ne_nil i.natAbs)
      | cons d ds => exact ⟨d, ds, rfl⟩
    have hd : d < 10 := by
      have := natDigitList_lt i.natAbs
      rw [hds] at this
      exact this d (by simp)
    have h : renderInt i ++ rest = digitChar d :: (ds.map digitChar ++ rest) := by
      rw [renderInt, if_neg hneg, renderNat, hds]
      simp
    have hws : ¬(digitChar d = ' ' ∨ digitChar d = '\n' ∨ digitChar d = '\t' ∨
        digitChar d = '\r') := by
      push_neg
      exact ⟨digitChar_ne hd ' ' (by decide), digitChar_ne hd '\n' (by decide),
        digitChar_ne hd '\t' (by decide), digitChar_ne hd '\r' (by decide)⟩
    have hnum : parseJNumber false (digitChar d :: (ds.map digitChar ++ rest)) =
        some (Json.num false i.natAbs [] none, rest) := by
      rw [show digitChar d :: (ds.map digitChar ++ rest) =
        renderNat i.natAbs ++ rest by rw [renderNat, hds]; simp]
      exact parseJNumber_render false i.natAbs rest hrest
    rw [h, parseJValue_succ, skipWs_cons hws _]
    simp [digitChar_ne hd '"' (by decide), digitChar_ne hd '\x7b' (by decide),
      digitChar_ne hd '[' (by decide), digitChar_ne hd 't' (by decide),
      digitChar_ne hd 'f' (by decide), digitChar_ne hd 'n' (by decide),
      digitChar_ne hd '-' (by decide), digitChar_isDigit hd, hnum,
      jnumOfInt, hneg]

theorem parseJMembers_step (fuel : Nat) (k : String)
    (hk : escapeString k.toList = k.toList) (vcs : List Char) (v : Json)
    (rest : List Char) (acc : List (String × Json))
    (hv : parseJValue (fuel + 1) (vcs ++ ',' :: rest) = some (v, ',' :: rest)) :
    parseJMembers (fuel + 2) (keyColon k ++ (vcs ++ ',' :: rest)) acc =
      parseJMembers (fuel + 1) (skipWs rest) ((k, v) :: acc) := by
  have hshape : keyColon k ++ (vcs ++ ',' :: rest) =
      '"' :: (k.toList ++ '"' :: ':' :: (vcs ++ ',' :: rest)) := by
    simp [keyColon]
  have hkey : parseJStr (k.toList ++ '"' :: ':' :: (vcs ++ ',' :: rest)) [] =
      some (k, ':' :: (vcs ++ ',' :: rest)) := by
    have := parseJStr_escape k.toList [] (':' :: (vcs ++ ',' :: rest))
    rw [hk] at this
    simpa [mk_toList, String.toList] using this
  rw [hshape, show (fuel + 2) = (fuel + 1) + 1 from rfl, parseJMembers_succ]
  simp only [String.toList] at hkey
  simp [hkey, skipWs_cons (by decide : ¬(':' = ' ' ∨ ':' = '\n' ∨ ':' = '\t' ∨
    ':' = '\r')), skipWs_cons (by decide : ¬(',' = ' ' ∨ ',' = '\n' ∨
    ',' = '\t' ∨ ',' = '\r')), hv]

theorem parseJMembers_last (fuel : Nat) (k : String)
    (hk : escapeString k.toList = k.toList) (vcs : List Char) (v : Json)
    (rest : List Char) (acc : List (String × Json))
    (hv : parseJValue (fuel + 1) (vcs ++ '\x7d' :: rest) = some (v, '\x7d' :: rest)) :
    parseJMembers (fuel + 2) (keyColon k ++ (vcs ++ '\x7d' :: rest)) acc =
      some (Json.obj ((k, v) :: acc).reverse, rest) := by
  have hshape : keyColon k ++ (vcs ++ '\x7d' :: rest) =
      '"' :: (k.toList ++ '"' :: ':' :: (vcs ++ '\x7d' :: rest)) := by
    simp [keyColon]
  have hkey : parseJStr (k.toList ++ '"' :: ':' :: (vcs ++ '\x7d' :: rest)) [] =
      some (k, ':' :: (vcs ++ '\x7d' :: rest)) := by
    have := parseJStr_escape k.toList [] (':' :: (vcs ++ '\x7d' :: rest))
    rw [hk] at this
    simpa [mk_toList, String.toList] using this
  rw [hshape, show (fuel + 2) = (fuel + 1) + 1 from rfl, parseJMembers_succ]
  simp only [String.toList] at hkey
  simp [hkey, skipWs_cons (by decide : ¬(':' = ' ' ∨ ':' = '\n' ∨ ':' = '\t' ∨
    ':' = '\r')), skipWs_cons (by decide : ¬('\x7d' = ' ' ∨ '\x7d' = '\n' ∨
    '\x7d' = '\t' ∨ '\x7d' = '\r')), hv]


theorem keyColon_cons (k : String) (x : List Char) :
    keyColon k ++ x = '"' :: (k.toList ++ '"' :: ':' :: x) := by
  simp [keyColon]

theorem skipWs_keyColon (k : String) (x : List Char) :
    skipWs (keyColon k ++ x) = keyColon k ++ x := by
  rw [keyColon_cons, skipWs_cons (by decide) _]

theorem parseJValue_objEnter (fuel : Nat) (kc : List Char) :
    parseJValue (fuel + 1) ('\x7b' :: ('"' :: kc)) =
      parseJMembers fuel ('"' :: kc) [] := by
  rw [parseJValue_succ, skipWs_cons (by decide) _]
  simp [skipWs_cons (show ¬('"' = ' ' ∨ '"' = '\n' ∨ '"' = '\t' ∨ '"' = '\r')
    from by decide)]

theorem parseJValue_renderInt_comma (fuel : Nat) (i : Int) (r : List Char) :
    parseJValue (fuel + 1) (renderInt i ++ ',' :: r) =
      some (jnumOfInt i, ',' :: r) :=
  parseJValue_renderInt fuel i (',' :: r) rfl

theorem memberStep_int (fuel : Nat) (k : String)
    (hk : escapeString k.toList = k.toList) (i : Int) (rest : List Char)
    (acc : List (String × Json)) :
    parseJMembers (fuel + 2) (keyColon k ++ (renderInt i ++ ',' :: rest)) acc =
      parseJMembers (fuel + 1) (skipWs rest) ((k, jnumOfInt i) :: acc) :=
  parseJMembers_step fuel k hk _ _ _ _ (parseJValue_renderInt_comma fuel i rest)

theorem memberStep_str (fuel : Nat) (k : String)
    (hk : escapeString k.toList = k.toList) (v : String) (rest : List Char)
    (acc : List (String × Json)) :
    parseJMembers (fuel + 2) (keyColon k ++ (renderString v ++ ',' :: rest)) acc =
      parseJMembers (fuel + 1) (skipWs rest) ((k, Json.str v) :: acc) :=
  parseJMembers_step fuel k hk _ _ _ _
    (parseJValue_renderString fuel v (',' :: rest))

theorem memberLast_str (fuel : Nat) (k : String)
    (hk : escapeString k.toList = k.toList) (v : String) (rest : List Char)
    (acc : List (String × Json)) :
    parseJMembers (fuel + 2) (keyColon k ++ (renderString v ++ '\x7d' :: rest)) acc =
      some (Json.obj ((k, Json.str v) :: acc).reverse, rest) :=
  parseJMembers_last fuel k hk _ _ _ _
    (parseJValue_renderString fuel v ('\x7d' :: rest))

theorem parseJValue_userChars (fuel : Nat) (u : User) :
    parseJValue (fuel + 8) (userChars u) = some (userToJson u, []) := by
  unfold userChars
  rw [show fuel + 8 = (fuel + 7) + 1 from rfl, keyColon_cons "id",
    parseJValue_objEnter (fuel + 7), ← keyColon_cons "id"]
  rw [show fuel + 7 = (fuel + 5) + 2 from rfl,
    memberStep_int (fuel + 5) "id" rfl, skipWs_keyColon]
  rw [show fuel + 5 + 1 = (fuel + 4) + 2 from rfl,
    memberStep_str (fuel + 4) "name" rfl, skipWs_keyColon]
  rw [show fuel + 4 + 1 = (fuel + 3) + 2 from rfl,
    memberStep_str (fuel + 3) "email" rfl, skipWs_keyColon]
  rw [show fuel + 3 + 1 = (fuel + 2) + 2 from rfl,
    memberStep_str (fuel + 2) "role" rfl, skipWs_keyColon]
  rw [show fuel + 2 + 1 = (fuel + 1) + 2 from rfl,
    memberStep_int (fuel + 1) "trust_score" rfl, skipWs_keyColon]
  rw [show fuel + 1 + 1 = fuel + 2 from rfl,
    memberLast_str fuel "created_at" rfl]
  rfl

theorem renderNat_length_pos (n : Nat) : 1 ≤ (renderNat n).length := by
  rw [renderNat]
  cases h : natDigitList n with
  | nil => exact absurd h (natDigitList_ne_nil n)
  | cons d ds => simp

theorem renderInt_length_pos (i : Int) : 1 ≤ (renderInt i).length := by
  rw [renderInt]
  by_cases h : i < 0
  · simp [h]
  · simp [h, renderNat_length_pos i.natAbs]

theorem stringifyUser_length (u : User) : 7 ≤ (stringifyUser u).length := by
  show 7 ≤ (userChars u).length
  unfold userChars
  simp only [List.length_cons, List.length_append]
  have h1 : (keyColon "id").length = 5 := rfl
  have h2 := renderInt_length_pos u.id
  omega

theorem jsonParse_stringifyUser (u : User) :
    jsonParse (stringifyUser u) = some (userToJson u) := by
  obtain ⟨g, hg⟩ : ∃ g, (stringifyUser u).length + 1 = g + 8 :=
    ⟨(stringifyUser u).length - 7, by have := stringifyUser_length u; omega⟩
  rw [jsonParse.eq_def, show (stringifyUser u).toList = userChars u from rfl,
    hg, parseJValue_userChars]
  rfl

theorem jsonInt_ofInt (i : Int) : jsonInt (jnumOfInt i) = some i := by
  by_cases h : i < 0
  · rw [jnumOfInt, if_pos h,
      show jsonInt (Json.num true i.natAbs [] none) =
        some (-(i.natAbs : Int)) from rfl]
    congr 1
    omega
  · rw [jnumOfInt, if_neg h,
      show jsonInt (Json.num false i.natAbs [] none) =
        some ((i.natAbs : Int)) from rfl]
    congr 1
    omega

theorem jsonToUser_userToJson (u : User) :
    jsonToUser (userToJson u) = some u := by
  rw [userToJson]
  simp [jsonToUser, jsonInt_ofInt, jsonStr, parseRole_toString, List.lookup]

theorem parseUser_stringifyUser (u : User) :
    parseUser (stringifyUser u) = some u := by
  rw [parseUser, jsonParse_stringifyUser, Option.some_bind']
  exact jsonToUser_userToJson u


/-! ## Persisted browser storage (localStorage, restricted to the two keys
the core uses) -/

/-- The persisted client-side state: the serialized Identity under key
`"user"` and the raw Credential under key `"token"`. -/
structure Storage where
  user : Option String
  token : Option String
deriving DecidableEq

/-- localStorage.getItem. -/
def Storage.getItem (st : Storage) (key : String) : Option String :=
  if key = "user" then st.user
  else if key = "token" then st.token
  else none

/-- localStorage.setItem (for the two keys the core writes). -/
def Storage.setItem (st : Storage) (key value : String) : Storage :=
  if key = "user" then { st with user := some value }
  else if key = "token" then { st with token := some value }
  else st

/-- localStorage.removeItem (for the two keys the core removes). -/
def Storage.removeItem (st : Storage) (key : String) : Storage :=
  if key = "user" then { st with user := none }
  else if key = "token" then { st with token := none }
  else st

/-- Storage with neither entry present. -/
def Storage.empty : Storage :=
  { user := none, token := none }

/-! ## The Session Store (useAuth) -/

/-- The runtime Session: the current Identity (or absent) and the loading
flag, i.e. the useState pair owned by one useAuth call. -/
structure Session where
  user : Option User
  loading : Bool
deriving DecidableEq

/-- The state of a useAuth call before its mount effect has run. -/
def Session.preInit : Session :=
  { user := none, loading := true }

/-- The raw mount-time effect of useAuth: read the persisted `"user"`
entry; if present (truthy), the value `setUser` receives is whatever
JSON.parse returns — any JSON value, with no Identity-schema validation —
and null (`none`) when JSON.parse throws; if absent or falsy the user
stays null. -/
def initAdopted (st : Storage) : Option Json :=
  match st.getItem "user" with
  | some stored => if stored = "" then none else jsonParse stored
  | none => none

/-- The mount-time effect of useAuth, read through the Identity-typed
view: the Session claims about Identities read the adopted value as a
User exactly when it is one (`initSession_initAdopted` relates the two).
The try/catch around JSON.parse is the `none` branch of `parseUser`. -/
def initSession (st : Storage) : Session :=
  match st.getItem "user" with
  | some stored =>
    if stored = "" then { user := none, loading := false }
    else { user := parseUser stored, loading := false }
  | none => { user := none, loading := false }

/-- The typed view is exactly the Identity reading of the raw adopted
value. -/
theorem initSession_initAdopted (st : Storage) :
    initSession st =
      { user := (initAdopted st).bind jsonToUser, loading := false } := by
  rw [initSession, initAdopted]
  cases h : st.getItem "user" with
  | none => rfl
  | some stored =>
    by_cases he : stored = "" <;> simp [he, parseUser]

/-- setUserAndToken of useAuth (the Commit operation): set the in-memory
user and persist both the serialized Identity and the Credential. -/
def setUserAndToken (sess : Session) (st : Storage) (u : User) (token : String) :
    Session × Storage :=
  ({ sess with user := some u },
   (st.setItem "user" (stringifyUser u)).setItem "token" token)

/-- logout of useAuth (the Clear operation): drop the in-memory user and
delete both persisted entries. -/
def logout (sess : Session) (st : Storage) : Session × Storage :=
  ({ sess with user := none },
   (st.removeItem "user").removeItem "token")

/-! ## The Request Pipeline (the axios instance of api.ts) -/

/-- An outgoing request configuration: the Authorization header slot and
an opaque remainder (url, body, other headers). -/
structure Config where
  authorization : Option String
  payload : String
deriving DecidableEq

/-- The request interceptor: read the persisted token and, when truthy
(present and non-empty), attach it as a bearer Authorization header;
otherwise leave the config unmodified. -/
def requestInterceptor (st : Storage) (config : Config) : Config :=
  match st.getItem "token" with
  | some token =>
    if token = "" then config
    else { config with authorization := some ("Bearer " ++ token) }
  | none => config

/-- A settled response: either a success value or a failure whose
`err.response?.status` is the optional status (a network error has no
response, hence no status). -/
inductive Response
  | success (payload : String)
  | failure (status : Option Nat) (payload : String)
deriving DecidableEq

/-- The browser-visible state the response interceptor can touch:
persisted storage and window.location. -/
structure Browser where
  storage : Storage
  location : String
deriving DecidableEq

/-- The response interceptor: a success passes through unchanged; a
failure with status 401 removes both persisted entries and navigates to
/login before re-rejecting with the original failure; any other failure
passes through unchanged. -/
def responseInterceptor (b : Browser) (resp : Response) : Browser × Response :=
  match resp with
  | .success p => (b, .success p)
  | .failure status p =>
    if status = some 401 then
      ({ storage := (b.storage.removeItem "token").removeItem "user",
         location := "/login" },
       .failure status p)
    else (b, .failure status p)

/-! ## Several simultaneously mounted useAuth consumers

Each React component that calls useAuth owns its own useState pair; there
is no shared context or storage-event listener, so a Commit performed by
one consumer mutates that consumer's state and the shared storage only. -/

/-- Shared persisted storage plus the independent Session state of every
currently mounted useAuth consumer. -/
structure World where
  storage : Storage
  sessions : List Session
deriving DecidableEq

/-- Mount one more component that calls useAuth: its state after the mount
effect is `initSession` of the shared storage. -/
def World.mount (w : World) : World :=
  { w with sessions := w.sessions ++ [initSession w.storage] }

/-- Replace the element at one position of a list. -/
def updateAt (l : List Session) (i : Nat) (f : Session → Session) : List Session :=
  match l, i with
  | [], _ => []
  | s :: rest, 0 => f s :: rest
  | s :: rest, n + 1 => s :: updateAt rest n f

/-- Consumer `i` calls setUserAndToken: its own state and the shared
storage change; the state of every other mounted consumer does not. -/
def World.commit (w : World) (i : Nat) (u : User) (token : String) : World :=
  { storage := (w.storage.setItem "user" (stringifyUser u)).setItem "token" token,
    sessions := updateAt w.sessions i (fun s => { s with user := some u }) }

/-! ## Page-level route guards -/

/-- Navigation a page's guard effect performs once loading settles. -/
inductive Nav
  | stay
  | toLogin
  | toDashboard
deriving DecidableEq

/-- What a page renders for a given Session: nothing (null) or its
content. -/
inductive Render
  | nothing
  | content
deriving DecidableEq

/-- Guard effect of the worker-profile page: wait while loading, send an
unauthenticated visitor to /login, send a non-worker to /dashboard. -/
def workerProfileNav (s : Session) : Nav :=
  if s.loading then .stay
  else match s.user with
  | none => .toLogin
  | some u => if u.role ≠ Role.worker then .toDashboard else .stay

/-- Render guard of the worker-profile page: null while loading, when no
user is present, or when the role is not worker. -/
def workerProfileRender (s : Session) : Render :=
  if s.loading then .nothing
  else match s.user with
  | none => .nothing
  | some u => if u.role ≠ Role.worker then .nothing else .content

/-- Guard effect of the tutor-profile page. -/
def tutorProfileNav (s : Session) : Nav :=
  if s.loading then .stay
  else match s.user with
  | none => .toLogin
  | some u => if u.role ≠ Role.tutor then .toDashboard else .stay

/-- Render guard of the tutor-profile page. -/
def tutorProfileRender (s : Session) : Render :=
  if s.loading then .nothing
  else match s.user with
  | none => .nothing
  | some u => if u.role ≠ Role.tutor then .nothing else .content

/-- Guard effect of the search page: any authenticated role may stay. -/
def searchNav (s : Session) : Nav :=
  if s.loading then .stay
  else match s.user with
  | none => .toLogin
  | some _ => .stay

/-- Render guard of the search page. -/
def searchRender (s : Session) : Render :=
  if s.loading then .nothing
  else match s.user with
  | none => .nothing
  | some _ => .content

/-- Guard effect of the dashboard page: any authenticated role may stay. -/
def dashboardNav (s : Session) : Nav :=
  if s.loading then .stay
  else match s.user with
  | none => .toLogin
  | some _ => .stay

/-- Render guard of the dashboard page (its post-authorization data
spinner and content both count as content here). -/
def dashboardRender (s : Session) : Render :=
  if s.loading then .nothing
  else match s.user with
  | none => .nothing
  | some _ => .content

/-- The protected-page contract of the spec for one page, parameterized by
the role the page requires (none when every authenticated role may use
it). -/
def guardContract (nav : Session → Nav) (render : Session → Render)
    (required : Option Role) : Prop :=
  ∀ s : Session,
    (s.loading = true → nav s = .stay ∧ render s = .nothing) ∧
    (s.loading = false → s.user = none → nav s = .toLogin ∧ render s = .nothing) ∧
    (∀ u r, s.loading = false → s.user = some u → required = some r → u.role ≠ r →
      nav s = .toDashboard ∧ render s = .nothing)

/-! ## The worker-profile creation call (C3) -/

/-- One value in a multipart FormData body. -/
inductive FormValue
  | str (s : String)
  | file (name : String)
deriving DecidableEq

/-- A JS value reaching the price parameter of workers.createProfile (the
TypeScript annotation says number, but the runtime does not enforce it). -/
inductive JsValue
  | undef
  | num (n : Int)
  | str (s : String)
  | file (name : String)
deriving DecidableEq

/-- JS String(x) for the values above; a File stringifies via
Object.prototype.toString to "[object File]". -/
def jsToString : JsValue → String
  | .undef => "undefined"
  | .num n => ⟨renderInt n⟩
  | .str s => s
  | .file _ => "[object File]"

/-- workers.createProfile of api.ts: append service_type and
String(price), and append the id document only when one was passed. -/
def createProfileBody (serviceType : String) (price : JsValue)
    (idDocument : Option String) : List (String × FormValue) :=
  [("service_type", .str serviceType), ("price", .str (jsToString price))] ++
    (match idDocument with
     | some f => [("id_document", FormValue.file f)]
     | none => [])

/-- handleSubmit of the worker-profile page: the call site is
`workers.createProfile(serviceType, idDocument || undefined)`, so the
chosen id document (or undefined) flows into the price parameter and the
idDocument parameter is never supplied; the price the user entered is not
passed at all. -/
def workerProfileSubmitBody (serviceType : String) (price : String)
    (idDocument : Option String) : List (String × FormValue) :=
  createProfileBody serviceType
    (match idDocument with
     | some f => JsValue.file f
     | none => JsValue.undef)
    none

/-! ## Helper lemmas about the model -/

theorem stringifyUser_ne_empty (u : User) : stringifyUser u ≠ "" := by
  intro h
  have h2 : (stringifyUser u).toList = "".toList := by rw [h]
  have h3 : userChars u = [] := h2
  unfold userChars at h3
  exact List.noConfusion h3

theorem updateAt_getElem_self (l : List Session) (f : Session → Session) :
    ∀ i, (updateAt l i f)[i]? = (l[i]?).map f := by
  induction l with
  | nil => intro i; simp [updateAt]
  | cons s rest ih =>
    intro i
    cases i with
    | zero => simp [updateAt]
    | succ n => simpa [updateAt] using ih n

theorem updateAt_getElem_other (l : List Session) (f : Session → Session) :
    ∀ i j, j ≠ i → (updateAt l i f)[j]? = l[j]? := by
  induction l with
  | nil => intro i j _; simp [updateAt]
  | cons s rest ih =>
    intro i j hne
    cases i with
    | zero =>
      cases j with
      | zero => exact absurd rfl hne
      | succ m => simp [updateAt]
    | succ n =>
      cases j with
      | zero => simp [updateAt]
      | succ m => simpa [updateAt] using ih n m (fun h => hne (by rw [h]))

/-- One-to-one persistence of Identity and Credential: either both entries
are present or neither is. -/
def bothOrNeither (st : Storage) : Prop :=
  (st.getItem "user").isSome = (st.getItem "token").isSome

/-- A sample Identity used in concrete evaluations. -/
def sampleUser : User :=
  User.mk 1 "A" "a@example.com" Role.customer 0 "2024-01-01T00:00:00"

/-! ## The claims -/

/-- C1: for every response received through the Request Pipeline, a
failure with status 401 leaves both persisted entries absent, sets the
location to /login and propagates the original failure unchanged, while a
success or a failure with any other status passes through with browser
state untouched. -/
theorem C1_response_interceptor_401 (b : Browser) (status : Option Nat) (p : String) :
    (((responseInterceptor b (.failure (some 401) p)).1.storage.getItem "user" = none) ∧
     ((responseInterceptor b (.failure (some 401) p)).1.storage.getItem "token" = none) ∧
     ((responseInterceptor b (.failure (some 401) p)).1.location = "/login") ∧
     ((responseInterceptor b (.failure (some 401) p)).2 = .failure (some 401) p)) ∧
    (status ≠ some 401 →
      responseInterceptor b (.failure status p) = (b, .failure status p)) ∧
    (responseInterceptor b (.success p) = (b, .success p)) := by
  refine ⟨⟨?_, ?_, ?_, ?_⟩, ?_, ?_⟩
  · simp [responseInterceptor, Storage.removeItem, Storage.getItem]
  · simp [responseInterceptor, Storage.removeItem, Storage.getItem]
  · simp [responseInterceptor]
  · simp [responseInterceptor]
  · intro h; simp [responseInterceptor, h]
  · simp [responseInterceptor]

theorem C1_witness :
    ((responseInterceptor (Browser.mk (Storage.mk (some "u") (some "t")) "/search")
        (.failure (some 401) "unauthorized")).1.storage.getItem "user" = none) ∧
    ((some 500 : Option Nat) ≠ some 401) ∧
    (responseInterceptor (Browser.mk (Storage.mk (some "u") (some "t")) "/search")
        (.failure (some 500) "unauthorized") =
      (Browser.mk (Storage.mk (some "u") (some "t")) "/search",
       .failure (some 500) "unauthorized")) :=
  ⟨(C1_response_interceptor_401 (Browser.mk (Storage.mk (some "u") (some "t")) "/search")
      (some 500) "unauthorized").1.1,
   by decide,
   (C1_response_interceptor_401 (Browser.mk (Storage.mk (some "u") (some "t")) "/search")
      (some 500) "unauthorized").2.1 (by decide)⟩

/-- C2: every outgoing request through the Request Pipeline carries the
header Authorization: Bearer followed by the stored credential when one is
present in persisted storage (present meaning a non-empty token string,
see C10), and is passed through unmodified when no credential is present. -/
theorem C2_request_interceptor_bearer (st : Storage) (c : Config) :
    (∀ t, st.getItem "token" = some t → t ≠ "" →
      requestInterceptor st c = { c with authorization := some ("Bearer " ++ t) }) ∧
    ((st.getItem "token" = none ∨ st.getItem "token" = some "") →
      requestInterceptor st c = c) := by
  constructor
  · intro t ht hne
    simp [requestInterceptor, ht, hne]
  · rintro (h | h) <;> simp [requestInterceptor, h]

theorem C2_witness :
    ((Storage.mk none (some "tok123")).getItem "token" = some "tok123" ∧
      "tok123" ≠ "" ∧
      requestInterceptor (Storage.mk none (some "tok123"))
          (Config.mk none "GET /api/bookings") =
        Config.mk (some "Bearer tok123") "GET /api/bookings") ∧
    (Storage.empty.getItem "token" = none ∧
      requestInterceptor Storage.empty (Config.mk none "GET /api/bookings") =
        Config.mk none "GET /api/bookings") :=
  ⟨⟨rfl, by decide,
    (C2_request_interceptor_bearer (Storage.mk none (some "tok123"))
      (Config.mk none "GET /api/bookings")).1 "tok123" rfl (by decide)⟩,
   ⟨rfl,
    (C2_request_interceptor_bearer Storage.empty
      (Config.mk none "GET /api/bookings")).2 (Or.inl rfl)⟩⟩

/-- C10: when the persisted credential entry exists but holds the empty
string, the outbound interceptor treats it as absent and attaches no
Authorization header, leaving the request unmodified. -/
theorem C10_empty_token_no_header (st : Storage) (c : Config)
    (h : st.getItem "token" = some "") :
    requestInterceptor st c = c := by
  simp [requestInterceptor, h]

theorem C10_witness :
    (Storage.mk none (some "")).getItem "token" = some "" ∧
    requestInterceptor (Storage.mk none (some ""))
        (Config.mk none "GET /api/bookings") =
      Config.mk none "GET /api/bookings" :=
  ⟨rfl, C10_empty_token_no_header (Storage.mk none (some ""))
    (Config.mk none "GET /api/bookings") rfl⟩

/-- C8: after Clear (logout), regardless of the prior state, both
persisted entries are absent, the Session reports no Identity, and a
subsequent Request Pipeline call attaches no credential. -/
theorem C8_clear_completeness (sess : Session) (st : Storage) (c : Config) :
    ((logout sess st).2.getItem "user" = none) ∧
    ((logout sess st).2.getItem "token" = none) ∧
    ((logout sess st).1.user = none) ∧
    (requestInterceptor (logout sess st).2 c = c) := by
  refine ⟨?_, ?_, rfl, ?_⟩ <;>
    simp [logout, Storage.removeItem, Storage.getItem, requestInterceptor]

/-- C5: Identity and Credential are set and cleared together.  Starting
from a storage where both entries are present or neither is, Commit
(setUserAndToken), Clear (logout) and the response interceptor (on any
response, 401 included) each leave storage again holding both entries or
neither.  Initialize (initSession) takes storage as read-only input and
returns only a Session, so it cannot disturb the invariant. -/
theorem C5_storage_both_or_neither (st : Storage) (h : bothOrNeither st)
    (sess : Session) (u : User) (tok : String) (loc : String) (resp : Response) :
    bothOrNeither (setUserAndToken sess st u tok).2 ∧
    bothOrNeither (logout sess st).2 ∧
    bothOrNeither ((responseInterceptor (Browser.mk st loc) resp).1.storage) := by
  refine ⟨?_, ?_, ?_⟩
  · simp [bothOrNeither, setUserAndToken, Storage.setItem, Storage.getItem]
  · simp [bothOrNeither, logout, Storage.removeItem, Storage.getItem]
  · cases resp with
    | success p => simpa [responseInterceptor] using h
    | failure status p =>
      by_cases h401 : status = some 401
      · simp [responseInterceptor, h401, bothOrNeither,
          Storage.removeItem, Storage.getItem]
      · simpa [responseInterceptor, h401] using h

theorem C5_witness :
    bothOrNeither (Storage.mk (some "u") (some "t")) ∧
    (bothOrNeither (setUserAndToken (Session.mk none false)
        (Storage.mk (some "u") (some "t")) sampleUser "tok123").2 ∧
     bothOrNeither (logout (Session.mk none false)
        (Storage.mk (some "u") (some "t"))).2 ∧
     bothOrNeither ((responseInterceptor
        (Browser.mk (Storage.mk (some "u") (some "t")) "/search")
        (.failure (some 401) "x")).1.storage)) :=
  ⟨rfl,
   C5_storage_both_or_neither (Storage.mk (some "u") (some "t")) rfl
     (Session.mk none false) sampleUser "tok123" "/search"
     (.failure (some 401) "x")⟩

/-- C6: Commit(identity, credential) followed by a fresh Session Store
mount over the same persisted storage (a reload) restores a current
Identity deep-equal to the committed one, with loading false. -/
theorem C6_commit_reload_roundtrip (sess : Session) (st : Storage)
    (u : User) (tok : String) :
    initSession (setUserAndToken sess st u tok).2 =
      { user := some u, loading := false } := by
  have hget : ((setUserAndToken sess st u tok).2).getItem "user" =
      some (stringifyUser u) := by
    simp [setUserAndToken, Storage.setItem, Storage.getItem]
  rw [initSession, hget]
  simp [stringifyUser_ne_empty u, parseUser_stringifyUser u]

/-- C7 counterexample: the claim states that for every persisted identity
value that is not parseable as an Identity, initialization ends with the
current Identity absent.  The stored string "42" is not parseable as an
Identity (parseUser rejects it), yet the real mount effect adopts the
parsed JSON value 42 as the current user — a present, truthy value, so
the session is not logged out: useAuth applies no schema validation to
what JSON.parse returns. -/
theorem C7_counterexample :
    parseUser "42" = none ∧
    initAdopted (Storage.mk (some "42") none) = some (Json.num false 42 [] none) ∧
    some (Json.num false 42 [] none) ≠ (none : Option Json) := by
  refine ⟨rfl, rfl, ?_⟩
  intro h
  exact Option.noConfusion h

/-- C7 amended: for every persisted identity value that is not parseable
as JSON (for example the literal string "\x7bnot json"), Session Store
initialization completes without raising any exception (the mount effect
is total: JSON.parse exceptions are caught and become the absent value),
with the current Identity absent and the loading flag false; a persisted
value that parses as JSON is adopted as the current user unvalidated,
whether or not it is an Identity. -/
theorem C7_unparseable_init_safe (st : Storage) (s : String)
    (hstored : st.getItem "user" = some s) :
    (jsonParse s = none →
      initAdopted st = none ∧
      initSession st = { user := none, loading := false }) ∧
    (∀ j, jsonParse s = some j → initAdopted st = some j) := by
  constructor
  · intro hbad
    constructor
    · rw [initAdopted, hstored]
      by_cases he : s = "" <;> simp [he, hbad]
    · rw [initSession, hstored]
      by_cases he : s = "" <;> simp [he, parseUser, hbad]
  · intro j hj
    have hne : s ≠ "" := by
      intro he
      rw [he] at hj
      rw [show jsonParse "" = none from rfl] at hj
      exact Option.noConfusion hj
    rw [initAdopted, hstored]
    simp [hne, hj]

theorem C7_witness :
    ((Storage.mk (some "\x7bnot json") none).getItem "user" =
      some "\x7bnot json") ∧
    jsonParse "\x7bnot json" = none ∧
    initAdopted (Storage.mk (some "\x7bnot json") none) = none ∧
    initSession (Storage.mk (some "\x7bnot json") none) =
      { user := none, loading := false } :=
  ⟨rfl, rfl,
   ((C7_unparseable_init_safe (Storage.mk (some "\x7bnot json") none)
      "\x7bnot json" rfl).1 rfl).1,
   ((C7_unparseable_init_safe (Storage.mk (some "\x7bnot json") none)
      "\x7bnot json" rfl).1 rfl).2⟩

/-- C3: the claim states that the multipart body of POST
/api/workers/profile contains the selected service type, the entered
price and, when chosen, the id document.  The code contradicts it: the
worker-profile page calls createProfile with the chosen id document (or
undefined) in the price position and no third argument, so the body's
price field stringifies that value ("[object File]" or "undefined"), the
entered price is never sent, and the id_document part is never appended.
This theorem evaluates the submission at the failing input (service type
"plumbing", entered price "50", chosen document "id.png") and at the
document-less variant. -/
theorem C3_worker_profile_body_bug :
    (workerProfileSubmitBody "plumbing" "50" (some "id.png") =
      [("service_type", FormValue.str "plumbing"),
       ("price", FormValue.str "[object File]")]) ∧
    ((workerProfileSubmitBody "plumbing" "50" (some "id.png")).lookup
      "id_document" = none) ∧
    ((workerProfileSubmitBody "plumbing" "50" (some "id.png")).lookup
      "price" ≠ some (FormValue.str "50")) ∧
    (workerProfileSubmitBody "plumbing" "50" none =
      [("service_type", FormValue.str "plumbing"),
       ("price", FormValue.str "undefined")]) := by
  refine ⟨rfl, rfl, ?_, rfl⟩
  decide

/-- C9: every protected page renders nothing while the Session is loading,
navigates to login and renders nothing once loading completes with no
Identity, and navigates to the default dashboard and renders nothing when
the Identity's role does not match the page's required role (worker for
the worker-profile page, tutor for the tutor-profile page; the search and
dashboard pages require no particular role, so their role branch is
vacuous). -/
theorem C9_page_guards :
    guardContract workerProfileNav workerProfileRender (some Role.worker) ∧
    guardContract tutorProfileNav tutorProfileRender (some Role.tutor) ∧
    guardContract searchNav searchRender none ∧
    guardContract dashboardNav dashboardRender none := by
  refine ⟨?_, ?_, ?_, ?_⟩ <;> intro s <;>
    refine ⟨fun hl => ?_, fun hl hu => ?_, fun u r hl hu hr hne => ?_⟩
  · simp [workerProfileNav, workerProfileRender, hl]
  · simp [workerProfileNav, workerProfileRender, hl, hu]
  · have hr2 : r = Role.worker := by injection hr with h; exact h.symm
    subst hr2
    simp [workerProfileNav, workerProfileRender, hl, hu, hne]
  · simp [tutorProfileNav, tutorProfileRender, hl]
  · simp [tutorProfileNav, tutorProfileRender, hl, hu]
  · have hr2 : r = Role.tutor := by injection hr with h; exact h.symm
    subst hr2
    simp [tutorProfileNav, tutorProfileRender, hl, hu, hne]
  · simp [searchNav, searchRender, hl]
  · simp [searchNav, searchRender, hl, hu]
  · exact Option.noConfusion hr
  · simp [dashboardNav, dashboardRender, hl]
  · simp [dashboardNav, dashboardRender, hl, hu]
  · exact Option.noConfusion hr

theorem C9_witness :
    (workerProfileNav (Session.mk none true) = Nav.stay ∧
     workerProfileRender (Session.mk none true) = Render.nothing) ∧
    (searchNav (Session.mk none false) = Nav.toLogin ∧
     searchRender (Session.mk none false) = Render.nothing) ∧
    (tutorProfileNav (Session.mk (some sampleUser) false) = Nav.toDashboard ∧
     tutorProfileRender (Session.mk (some sampleUser) false) = Render.nothing) :=
  ⟨(C9_page_guards.1 (Session.mk none true)).1 rfl,
   (C9_page_guards.2.2.1 (Session.mk none false)).2.1 rfl rfl,
   (C9_page_guards.2.1 (Session.mk (some sampleUser) false)).2.2 sampleUser
     Role.tutor rfl rfl rfl (by decide)⟩

/-- A world with empty storage in which two components have mounted and
called useAuth. -/
def twoConsumers : World :=
  World.mount (World.mount (World.mk Storage.empty []))

/-- C4 counterexample: the claim says that after Commit every subsequent
read of Session by any consumer of the Session Store — not only the one
that called Commit — observes the new Identity.  With two mounted
consumers over empty storage, consumer 0 commits sampleUser, yet consumer
1's Session still holds no Identity: each useAuth call owns an
independent useState pair and no notification crosses components, so an
already-mounted consumer does not observe the Commit. -/
theorem C4_counterexample :
    ((twoConsumers.commit 0 sampleUser "tok123").sessions[1]? =
      some (Session.mk none false)) ∧
    (Session.mk none false).user ≠ some sampleUser := by
  refine ⟨rfl, ?_⟩
  decide

/-- C4 amended: after Commit by consumer i returns, the shared persisted
storage holds the new credential, every subsequent Request Pipeline call
attaches it as a bearer header, a read of Session by the committing
consumer observes the new Identity, and any consumer initialized
afterwards (a fresh mount or reload) observes it too; consumers already
mounted before the Commit keep their previous Session until they are
re-initialized. -/
theorem C4_commit_visibility (w : World) (i : Nat) (u : User) (tok : String)
    (c : Config) (htok : tok ≠ "") :
    ((w.commit i u tok).storage.getItem "token" = some tok) ∧
    (requestInterceptor (w.commit i u tok).storage c =
      { c with authorization := some ("Bearer " ++ tok) }) ∧
    (∀ s, (w.commit i u tok).sessions[i]? = some s → s.user = some u) ∧
    (initSession (w.commit i u tok).storage =
      { user := some u, loading := false }) ∧
    (∀ j, j ≠ i → (w.commit i u tok).sessions[j]? = w.sessions[j]?) := by
  have hget : (w.commit i u tok).storage.getItem "token" = some tok := by
    simp [World.commit, Storage.setItem, Storage.getItem]
  have hgetu : (w.commit i u tok).storage.getItem "user" =
      some (stringifyUser u) := by
    simp [World.commit, Storage.setItem, Storage.getItem]
  refine ⟨hget, ?_, ?_, ?_, ?_⟩
  · simp [requestInterceptor, hget, htok]
  · intro s hs
    rw [show (w.commit i u tok).sessions = updateAt w.sessions i
        (fun s => { s with user := some u }) from rfl,
      updateAt_getElem_self] at hs
    cases hmem : w.sessions[i]? with
    | none => rw [hmem] at hs; exact Option.noConfusion hs
    | some s0 =>
      rw [hmem] at hs
      have : ({ s0 with user := some u } : Session) = s := by
        simpa using hs
      rw [← this]
  · rw [initSession, hgetu]
    simp [stringifyUser_ne_empty u, parseUser_stringifyUser u]
  · intro j hj
    exact updateAt_getElem_other w.sessions _ i j hj

theorem C4_witness :
    ("tok123" ≠ "") ∧
    ((twoConsumers.commit 0 sampleUser "tok123").storage.getItem "token" =
      some "tok123") ∧
    (requestInterceptor (twoConsumers.commit 0 sampleUser "tok123").storage
        (Config.mk none "GET /api/bookings") =
      Config.mk (some "Bearer tok123") "GET /api/bookings") ∧
    (initSession (twoConsumers.commit 0 sampleUser "tok123").storage =
      { user := some sampleUser, loading := false }) :=
  ⟨by decide,
   (C4_commit_visibility twoConsumers 0 sampleUser "tok123"
      (Config.mk none "GET /api/bookings") (by decide)).1,
   (C4_commit_visibility twoConsumers 0 sampleUser "tok123"
      (Config.mk none "GET /api/bookings") (by decide)).2.1,
   (C4_commit_visibility twoConsumers 0 sampleUser "tok123"
      (Config.mk none "GET /api/bookings") (by decide)).2.2.2.1⟩
